import Mathlib

set_option maxHeartbeats 1000000
set_option maxRecDepth 4000

/-
Shallow embedding of `src/hunter/appmap_printer.py` (class `AppmapPrinter`).

Modelling conventions:
  * Python exceptions are modelled with `Except String`; a `.error` value is a
    raised exception, `.ok` a normal return.
  * The per-frame local-variable slot `_appmap_event_id` is modelled as a side
    table keyed by a frame identity (`Nat`); distinct activations have distinct
    frame ids, so the table is equivalent to one slot per frame.
  * `self.functions` is a `benedict`, whose keys are dot-separated keypaths;
    it is modelled by the full keypaths (split on a dot) of everything stored
    in it: the (possibly empty) per-class tables created by `add_to_classmap`
    and the function-entry leaves created by `add_function`.  A keypath is
    defined in a nested dict exactly when it is a prefix of a stored full path.
  * `str(v)` / `repr(v)` on a runtime value, the value's class, its truthiness
    and the owner class `__dict__` are part of the modelled runtime value,
    since they are inputs of the traced program, not code of this repository.
  * The output file is a list of written string chunks plus a closed flag;
    `write` on a closed file raises, as in Python.  JSON string escaping is
    performed by an external library (out of scope per the spec), so the
    serializers below produce unescaped text of the same shape.
-/

/-- One attribute of a class `__dict__`: whether it is a `property` object and
whether its `fget` is set (truthy). -/
structure ClassAttr where
  isProperty : Bool
  hasFget : Bool
deriving DecidableEq

/-- A Python runtime value as seen by the tracer: its class's
`__module__.__qualname__`, the class `__dict__` (for `label_function`),
the results of `str` and `repr` (which may raise), and its truthiness. -/
structure PyVal where
  className : String
  classDict : List (String × ClassAttr)
  strRepr : Except String String
  reprRepr : Except String String
  truthy : Bool

/-- The function object attached to an event: `__qualname__` and `__module__`. -/
structure FuncObj where
  qualname : String
  module : String
deriving DecidableEq

/-- A hunter event notification, restricted to the reflective data the printer
reads: kind, an identity for `event.frame`, `event.function_object`,
`event.filename`, `event.code.co_firstlineno`, the declared positional
parameter names `co_varnames[:co_argcount]`, the frame locals for those
names, and the return value `event.arg` (for returns; `none` is Python
`None`, otherwise the value). -/
structure Event where
  kind : String
  frameId : Nat
  function_object : Option FuncObj
  filename : String
  firstlineno : Nat
  varnames : List String
  locals : String → PyVal
  arg : Option PyVal

/-- A parameter record: keys `name`, `class`, `kind` and optional `value`
of the dict built in `inspect_call` (`cls` stands for the Python key
`"class"`, which is reserved in Lean). -/
structure Param where
  name : String
  cls : String
  kind : String
  value : Option String
deriving DecidableEq

/-- The `return_value` record of a return entry. -/
structure RetVal where
  cls : String
  value : String
deriving DecidableEq

/-- A label list element.  The Python code mixes plain strings and nested
lists in the same `labels` list (`labels.append(['getter'])` inside
`label_function`, and `labels.append(function_labels)` in `add_function`),
so the element type is a tree of strings. -/
inductive LabelVal where
  | str : String → LabelVal
  | lst : List LabelVal → LabelVal

/-- The function-map entry built by `add_function` (`ftype` is the Python
key `"type"`). -/
structure FunctionEntry where
  ftype : String
  name : String
  location : String
  static : Bool
  labels : Option (List LabelVal)

/-- A trace entry (the event dicts built by `inspect_event`,
`inspect_call` and `inspect_return`); optional fields are keys that are
present only for one kind of entry. -/
structure Entry where
  fq_class : String
  id : Nat
  event : String
  defined_class : String
  method_id : String
  path : String
  lineno : Nat
  static : Option Bool := none
  parameters : Option (List Param) := none
  receiver : Option Param := none
  thread_id : Option Nat := none
  parent_id : Option Nat := none
  return_value : Option RetVal := none

/-- The anytree node tree `self.classmap`: a name, a `type` attribute and a
list of children in insertion order. -/
inductive CTree where
  | node : String → String → List CTree → CTree

/-- Name of a classmap node. -/
def CTree.name : CTree → String
  | CTree.node n _ _ => n

/-- The `benedict` `self.functions`, modelled by the full dot-split keypaths
stored in it: `classPaths` are the paths at which `add_to_classmap` created an
empty per-class table, `entries` the leaf paths at which `add_function` stored
a function entry (in insertion order). -/
structure FunMap where
  classPaths : List (List String)
  entries : List (List String × FunctionEntry)

/-- The output file: chunks written so far, and whether it has been closed. -/
structure FileH where
  chunks : List String
  closed : Bool

/-- The printer state: `self.event_id`, `self.classmap`, `self.functions`,
the per-frame `_appmap_event_id` slots, `self.appmap` (`none` is Python
`None`), and the test item's name and module name. -/
structure PState where
  event_id : Nat
  classmap : CTree
  functions : FunMap
  frameTokens : List (Nat × Nat)
  appmap : Option FileH
  test_item_name : String
  test_item_module : String

/-- Splits a string at every dot, like Python `s.split('.')` and like a
`benedict` keypath (written over the character list so that it reduces in the
kernel). -/
def splitDotAux : List Char → List Char → List String
  | [], acc => [String.mk acc.reverse]
  | c :: cs, acc =>
    if c = '.' then String.mk acc.reverse :: splitDotAux cs []
    else splitDotAux cs (c :: acc)

/-- Python `s.split('.')`. -/
def splitDot (s : String) : List String :=
  splitDotAux s.data []

/-- Joins strings with dots (inverse of `splitDot` on its image). -/
def joinDot : List String → String
  | [] => ""
  | [x] => x
  | x :: xs => x ++ "." ++ joinDot xs

/-- Python `s.rpartition('.')` restricted to the two interesting components,
for callers that already know a dot is present: the text before the last dot
and the text after it. -/
def rpartitionDot (s : String) : String × String :=
  let parts := splitDot s
  (joinDot parts.dropLast, parts.getLastD "")

/-- Membership of a keypath in the nested-dict `self.functions`: a keypath
resolves exactly when it is a prefix of the full path of something stored. -/
def keyDefined (fm : FunMap) (p : List String) : Bool :=
  (fm.classPaths ++ fm.entries.map Prod.fst).any (fun q => p.isPrefixOf q)

/-- The function entries of `fm` stored at exactly the keypath `k`. -/
def entriesAtKey (fm : FunMap) (k : List String) : List FunctionEntry :=
  (fm.entries.filter (fun p => p.1 == k)).map Prod.snd

/-- Assignment `frame.f_locals['_appmap_event_id'] = v` on frame `f`. -/
def setToken (ts : List (Nat × Nat)) (f v : Nat) : List (Nat × Nat) :=
  (f, v) :: ts.filter (fun x => x.1 != f)

/-- Lookup of `_appmap_event_id` in the locals of frame `f`
(`none` when the key is absent). -/
def getToken (ts : List (Nat × Nat)) (f : Nat) : Option Nat :=
  (ts.find? (fun x => x.1 == f)).map Prod.snd

/-- Removal part of `frame.f_locals.pop('_appmap_event_id')`. -/
def delToken (ts : List (Nat × Nat)) (f : Nat) : List (Nat × Nat) :=
  ts.filter (fun x => x.1 != f)

/-- Python `file.write(c)`: raises `ValueError` on a closed file, otherwise
appends the chunk. -/
def fwrite (f : FileH) (c : String) : Except String FileH :=
  if f.closed then Except.error "I/O operation on closed file"
  else Except.ok { f with chunks := f.chunks ++ [c] }

/-- Splits a sibling list around the first node carrying the given name
(what `Resolver('name').get` resolves); `none` is the `ChildResolverError`
case. -/
def splitAtName : List CTree → String → Option (List CTree × CTree × List CTree)
  | [], _ => none
  | c :: rest, m =>
    if c.name == m then some ([], c, rest)
    else
      match splitAtName rest m with
      | some (b, f, a) => some (c :: b, f, a)
      | none => none

/-- Walks the module segments from the given node with `Resolver('name')`,
creating a package node for each missing path segment (anytree appends new
children at the end), and appends a class node under the final node — the
tree mutation of `AppmapPrinter.add_to_classmap`. -/
def addClassNode : List String → String → CTree → CTree
  | [], cls, CTree.node n ty cs => CTree.node n ty (cs ++ [CTree.node cls "class" []])
  | m :: rest, cls, CTree.node n ty cs =>
    match splitAtName cs m with
    | some (b, c, a) => CTree.node n ty (b ++ addClassNode rest cls c :: a)
    | none => CTree.node n ty (cs ++ [addClassNode rest cls (CTree.node m "package" [])])

/-- `AppmapPrinter.add_to_classmap(entry)` (the entry is only read for its
`fq_class`): if the class is already a defined keypath of `self.functions`,
return; otherwise create the package/class chain in `self.classmap` and store
an empty function table for the class in `self.functions`. -/
def add_to_classmap (s : PState) (fq_class : String) : PState :=
  if keyDefined s.functions (splitDot fq_class) then s
  else
    let pr := rpartitionDot fq_class
    { s with
      classmap := addClassNode (splitDot pr.1) pr.2 s.classmap,
      functions := { classPaths := s.functions.classPaths ++ [splitDot fq_class],
                     entries := s.functions.entries } }

/-- `AppmapPrinter.display_string(value)`: `str(value)`, on any failure
`repr(value)`, and if that raises too, the diagnostic f-string of the outer
handler. -/
def display_string (v : PyVal) : String :=
  match v.strRepr with
  | Except.ok s => s
  | Except.error _ =>
    match v.reprRepr with
    | Except.ok r => r
    | Except.error exc => "Failed rendering value as a string, " ++ exc

/-- `AppmapPrinter.label_function(cls, name)`: if the class dict holds a
`property` with a truthy `fget` under `name`, the returned list holds the
list `['getter']` (note: a nested list, as in the source). -/
def label_function (cd : List (String × ClassAttr)) (name : String) : List LabelVal :=
  match cd.find? (fun x => x.1 == name) with
  | some a =>
    if a.2.isProperty && a.2.hasFget then [LabelVal.lst [LabelVal.str "getter"]] else []
  | none => []

/-- The function-map entry built inside `AppmapPrinter.add_function` for a
first-seen location: name, location, `static` fixed to false, and the labels
derived from the method name and (when a receiver was present) from
`label_function` — whose returned list is appended wholesale
(`labels.append(function_labels)`). -/
def mkFunctionEntry (method_id location : String)
    (instance_class : Option (List (String × ClassAttr))) : FunctionEntry :=
  let labels0 : List LabelVal :=
    if method_id == "__init__" then [LabelVal.str "ctor"]
    else if method_id == "__setattr__" then [LabelVal.str "setter"]
    else if method_id == "__getattr__" then [LabelVal.str "getter"]
    else []
  let labels :=
    match instance_class with
    | some cd =>
      let function_labels := label_function cd method_id
      if function_labels.length > 0 then labels0 ++ [LabelVal.lst function_labels]
      else labels0
    | none => labels0
  { ftype := "function", name := method_id, location := location, static := false,
    labels := if labels.length > 0 then some labels else none }

/-- `AppmapPrinter.add_function(fq_class, entry, instance_class)`: dedup per
`path:lineno` keypath inside the class table; on first sight insert the entry
built by `mkFunctionEntry`. -/
def add_function (s : PState) (fq_class : String) (entry : Entry)
    (instance_class : Option (List (String × ClassAttr))) : PState :=
  let location := entry.path ++ ":" ++ Nat.repr entry.lineno
  let key := splitDot fq_class ++ splitDot location
  if keyDefined s.functions key then s
  else
    { s with
      functions := { classPaths := s.functions.classPaths,
                     entries := s.functions.entries ++
                       [(key, mkFunctionEntry entry.method_id location instance_class)] } }

/-- `AppmapPrinter.inspect_event(event)`: `none` models returning Python
`None` (no function object, or a bare function whose qualname has no dot);
otherwise the base entry and the state after `add_to_classmap`. -/
def inspect_event (s : PState) (e : Event) : Option (Entry × PState) :=
  match e.function_object with
  | none => none
  | some fo =>
    if !(fo.qualname.data.any (fun c => c == '.')) then none
    else
      let pr := rpartitionDot fo.qualname
      let entry : Entry := {
        fq_class := fo.module ++ "." ++ pr.1,
        id := s.event_id,
        event := e.kind,
        defined_class := pr.1,
        method_id := pr.2,
        path := e.filename,
        lineno := e.firstlineno }
      some (entry, add_to_classmap s entry.fq_class)

/-- The sanity check `'' in entry.values()` of `inspect_call`, restricted to
the string-valued keys (the int values `id` and `lineno` never equal `''`). -/
def emptyCheck (entry : Entry) : Bool :=
  entry.fq_class == "" || entry.event == "" || entry.defined_class == "" ||
  entry.method_id == "" || entry.path == ""

/-- Truncated rendered value `self.display_string(frame.f_locals[p])[:100]`. -/
def renderedValue (v : PyVal) : String :=
  String.mk ((display_string v).data.take 100)

/-- The parameter loop of `inspect_call` over
`enumerate(co_varnames[:co_argcount])`, started at index `i`: returns the
receiver (when `i == 0` and the name is `self`), the receiver's class dict
(`instance_class`), and the accumulated `params` list. -/
def scanParams : Nat → List String → (String → PyVal) →
    Option Param × Option (List (String × ClassAttr)) × List Param
  | _, [], _ => (none, none, [])
  | i, p :: rest, locals =>
    let v := locals p
    let param : Param := { name := p, cls := v.className, kind := "req", value := none }
    if i == 0 && p == "self" then
      let r := scanParams (i + 1) rest locals
      (some param, some v.classDict, r.2.2)
    else
      let r := scanParams (i + 1) rest locals
      (r.1, r.2.1, { param with value := some (renderedValue v) } :: r.2.2)

/-- The call entry built from the base entry in `inspect_call`: the
`{**entry, ...}` dict with `static`, `parameters` and the placeholder
`thread_id`, and — when the parameter scan found a receiver — the
`receiver` key and `static` set to false. -/
def callEntry (b : Entry) (e : Event) : Entry :=
  let scan := scanParams 0 e.varnames e.locals
  let entry2 := { b with static := some true, parameters := some scan.2.2,
                         thread_id := some 1 }
  match scan.1 with
  | some r => { entry2 with receiver := some r, static := some false }
  | none => entry2

/-- `AppmapPrinter.inspect_call(event)`: the `.error` case is the
`RuntimeError` of the sanity check; `.ok (s, none)` a suppressed event. -/
def inspect_call (s : PState) (e : Event) : Except String (PState × Option Entry) :=
  match inspect_event s e with
  | none => Except.ok (s, none)
  | some (entry, s1) =>
    if emptyCheck entry then Except.error "internal error, missing values"
    else
      let s2 := { s1 with frameTokens := setToken s1.frameTokens e.frameId s1.event_id }
      let entry3 := callEntry entry e
      Except.ok (add_function s2 entry3.fq_class entry3
        (scanParams 0 e.varnames e.locals).2.1, some entry3)

/-- The return entry built in `inspect_return`: the popped token becomes
`parent_id`, and `return_value` is attached when `event.arg` is truthy. -/
def returnEntry (b : Entry) (e : Event) (pid : Nat) : Entry :=
  let ret0 := { b with parent_id := some pid }
  match e.arg with
  | some v =>
    if v.truthy then
      { ret0 with return_value := some { cls := v.className, value := display_string v } }
    else ret0
  | none => ret0

/-- `AppmapPrinter.inspect_return(event)`: suppressed when the base entry is
suppressed or no `_appmap_event_id` is present on the frame; otherwise pops
the token into `parent_id` and attaches `return_value` when `event.arg` is
truthy. -/
def inspect_return (s : PState) (e : Event) : Except String (PState × Option Entry) :=
  match inspect_event s e with
  | none => Except.ok (s, none)
  | some (entry, s1) =>
    match getToken s1.frameTokens e.frameId with
    | none => Except.ok (s1, none)
    | some pid =>
      let s2 := { s1 with frameTokens := delToken s1.frameTokens e.frameId }
      Except.ok (s2, some (returnEntry entry e pid))

/-- Serialization of a parameter dict (shape of `json.dumps`; escaping is the
JSON library's concern, out of scope). -/
def paramChunk (p : Param) : String :=
  "\x7b\"name\": \"" ++ p.name ++ "\", \"class\": \"" ++ p.cls ++
  "\", \"kind\": \"" ++ p.kind ++ "\"" ++
  (match p.value with
   | some v => ", \"value\": \"" ++ v ++ "\""
   | none => "") ++ "\x7d"

/-- Comma-joined list of strings. -/
def joinComma : List String → String
  | [] => ""
  | [x] => x
  | x :: xs => x ++ "," ++ joinComma xs

mutual
/-- Serialization of one label value (strings or nested lists). -/
def exportLabel : LabelVal → String
  | LabelVal.str s => "\"" ++ s ++ "\""
  | LabelVal.lst l => "[" ++ exportLabels l ++ "]"

/-- Serialization of a list of label values. -/
def exportLabels : List LabelVal → String
  | [] => ""
  | [x] => exportLabel x
  | x :: xs => exportLabel x ++ "," ++ exportLabels xs
end

/-- Serialization of a stored function entry. -/
def exportFunctionEntry (fe : FunctionEntry) : String :=
  "\x7b\"type\": \"" ++ fe.ftype ++ "\", \"name\": \"" ++ fe.name ++
  "\", \"location\": \"" ++ fe.location ++ "\", \"static\": " ++
  (if fe.static then "true" else "false") ++
  (match fe.labels with
   | some ls => ", \"labels\": [" ++ joinComma (ls.map exportLabel) ++ "]"
   | none => "") ++ "\x7d"

/-- Serialization of the trace entry written by `__call__` after
`evt.pop('fq_class')`: every key of the dict except `fq_class`. -/
def entryChunk (e : Entry) : String :=
  "\x7b\"id\": " ++ Nat.repr e.id ++ ", \"event\": \"" ++ e.event ++
  "\", \"defined_class\": \"" ++ e.defined_class ++
  "\", \"method_id\": \"" ++ e.method_id ++ "\", \"path\": \"" ++ e.path ++
  "\", \"lineno\": " ++ Nat.repr e.lineno ++
  (match e.static with
   | some b => ", \"static\": " ++ (if b then "true" else "false")
   | none => "") ++
  (match e.parameters with
   | some ps => ", \"parameters\": [" ++ joinComma (ps.map paramChunk) ++ "]"
   | none => "") ++
  (match e.thread_id with
   | some t => ", \"thread_id\": " ++ Nat.repr t
   | none => "") ++
  (match e.receiver with
   | some r => ", \"receiver\": " ++ paramChunk r
   | none => "") ++
  (match e.parent_id with
   | some p => ", \"parent_id\": " ++ Nat.repr p
   | none => "") ++
  (match e.return_value with
   | some rv => ", \"return_value\": \x7b\"class\": \"" ++ rv.cls ++
       "\", \"value\": \"" ++ rv.value ++ "\"\x7d"
   | none => "") ++ "\x7d"

/-- `AppmapPrinter.__call__(event)`: ignore foreign kinds, dispatch to
`inspect_call` / `inspect_return`, and on a non-suppressed entry write the
separator and the serialized entry and increment `self.event_id`.  Calling
`.write` on a `None` appmap would raise `AttributeError`, hence the error
case. -/
def handleEvent (s : PState) (e : Event) : Except String (PState × Option Entry) :=
  if e.kind != "call" && e.kind != "return" then Except.ok (s, none)
  else
    match (if e.kind == "call" then inspect_call s e else inspect_return s e) with
    | Except.error m => Except.error m
    | Except.ok (s1, none) => Except.ok (s1, none)
    | Except.ok (s1, some evt) =>
      match s1.appmap with
      | none => Except.error "appmap is not open"
      | some f =>
        match fwrite f (if s1.event_id > 1 then "," else "") with
        | Except.error m => Except.error m
        | Except.ok f1 =>
          match fwrite f1 (entryChunk evt) with
          | Except.error m => Except.error m
          | Except.ok f2 =>
            Except.ok ({ s1 with appmap := some f2, event_id := s1.event_id + 1 }, some evt)

/-- Feeds a list of events through `handleEvent`, collecting the emitted
(non-suppressed) entries in order. -/
def runEvents : PState → List Event → Except String (PState × List Entry)
  | s, [] => Except.ok (s, [])
  | s, e :: es =>
    match handleEvent s e with
    | Except.error m => Except.error m
    | Except.ok (s1, r) =>
      match runEvents s1 es with
      | Except.error m => Except.error m
      | Except.ok (s2, out) =>
        Except.ok (s2, (match r with | some x => [x] | none => []) ++ out)

/-- Character class `[a-z0-9\-_]` of the first sanitizing regex in
`AppmapPrinter.setup`. -/
def allowedChar (c : Char) : Bool :=
  ('a' ≤ c && c ≤ 'z') || ('0' ≤ c && c ≤ '9') || c == '-' || c == '_'

/-- Python `re.sub('[^a-z0-9\-_]+', '_', fname)`: each maximal run of
disallowed characters becomes one underscore.  The flag records whether the
previous character was part of such a run. -/
def collapseDisallowed : Bool → List Char → List Char
  | _, [] => []
  | prevBad, c :: rest =>
    if allowedChar c then c :: collapseDisallowed false rest
    else if prevBad then collapseDisallowed true rest
    else '_' :: collapseDisallowed true rest

/-- Python `re.sub('_{2,}', '_', fname)`: each maximal run of underscores
becomes one underscore. -/
def collapseUnderscores : Bool → List Char → List Char
  | _, [] => []
  | prevU, c :: rest =>
    if c == '_' then
      if prevU then collapseUnderscores true rest
      else '_' :: collapseUnderscores true rest
    else c :: collapseUnderscores false rest

/-- Python `re.sub('^_|^$', '', fname)`: without MULTILINE, `^` matches only
at position 0, so this removes one leading underscore when present (the
alternative `^$` matches only the empty string and replaces it by itself). -/
def stripLeadingUnderscore : List Char → List Char
  | '_' :: rest => rest
  | l => l

/-- The filename sanitization pipeline of `AppmapPrinter.setup`. -/
def sanitize (s : String) : String :=
  String.mk (stripLeadingUnderscore
    (collapseUnderscores false (collapseDisallowed false s.data)))

/-- The output path built by `AppmapPrinter.setup` from the test item name. -/
def setupFilename (test_item_name : String) : String :=
  "tmp/appmap/pytest/" ++ sanitize test_item_name ++ ".appmap.json"

/-- Checks whether `pat` is a prefix of `target` (over characters). -/
def listStartsWith : List Char → List Char → Bool
  | [], _ => true
  | _ :: _, [] => false
  | a :: as, b :: bs => a == b && listStartsWith as bs

/-- Replaces every occurrence of a character by another. -/
def replaceChar (a b : Char) (s : String) : String :=
  String.mk (s.data.map (fun c => if c == a then b else c))

/-- Python `re.sub('^test_', '', s)`: strips one leading `test_`. -/
def stripTestPfx (s : String) : String :=
  if listStartsWith "test_".data s.data then String.mk (s.data.drop 5) else s

/-- Upper-cases the first character. -/
def capitalizeFirst (s : String) : String :=
  match s.data with
  | [] => ""
  | c :: cs => String.mk (c.toUpper :: cs)

/-- External collaborator `inflection.humanize`, modelled after its
documented behaviour (strip a trailing `_id`, underscores to spaces,
capitalize the first letter); not load-bearing for any claim. -/
def inflectionHumanize (s : String) : String :=
  let s1 := if listStartsWith "di_".data s.data.reverse
            then String.mk (s.data.take (s.data.length - 3)) else s
  capitalizeFirst (replaceChar '_' ' ' s1)

/-- `AppmapPrinter.humanize(str)`: dots to spaces, strip a leading `test_`,
then `inflection.humanize`. -/
def humanize (s : String) : String :=
  inflectionHumanize (stripTestPfx (replaceChar '.' ' ' s))

/-- The `metadata` object serialized at teardown (shape of `json.dumps`). -/
def metadataJson (s : PState) : String :=
  let feature := humanize s.test_item_module
  "\x7b\"name\": \"" ++ humanize s.test_item_name ++
  "\", \"app\": \"Tamr Client\", \"feature_group\": \"" ++ feature ++
  "\", \"feature\": \"" ++ feature ++
  "\", \"frameworks\": [\x7b\"name\": \"pytest\", \"version\": \"5.3.5\"\x7d]\x7d"

mutual
/-- Export of one classmap node at teardown (`JsonExporter` over
`DictExporter` with the `cleanup_functions` attriter): class nodes replace
their function table (looked up in `self.functions` at the node's keypath)
with the list of function entries in insertion order; `path` is the keypath
from the synthetic root to the parent. -/
def exportNode (fm : FunMap) (path : List String) : CTree → String
  | CTree.node n ty cs =>
    if ty == "class" then
      "\x7b\"name\": \"" ++ n ++ "\", \"type\": \"class\", \"children\": [" ++
        joinComma ((entriesAtKey fm (path ++ [n])).map exportFunctionEntry) ++ "]\x7d"
    else
      "\x7b\"name\": \"" ++ n ++ "\", \"type\": \"" ++ ty ++ "\", \"children\": [" ++
        exportForest fm (path ++ [n]) cs ++ "]\x7d"

/-- Export of a list of sibling classmap nodes, comma separated. -/
def exportForest (fm : FunMap) (path : List String) : List CTree → String
  | [] => ""
  | [c] => exportNode fm path c
  | c :: cs => exportNode fm path c ++ "," ++ exportForest fm path cs
end

/-- Writes each top-level classmap node with a comma separator before every
node except the first — the `for root in self.classmap.children` loop of
`teardown`. -/
def writeRoots (f : FileH) (fm : FunMap) (comma : String) :
    List CTree → Except String FileH
  | [] => Except.ok f
  | root :: rest =>
    match fwrite f comma with
    | Except.error m => Except.error m
    | Except.ok f1 =>
      match fwrite f1 (exportNode fm [] root) with
      | Except.error m => Except.error m
      | Except.ok f2 => writeRoots f2 fm "," rest

/-- Children of the classmap root. -/
def CTree.children : CTree → List CTree
  | CTree.node _ _ cs => cs

/-- `AppmapPrinter.teardown()`: when `self.appmap` is `None`, write the
diagnostic to stderr (the returned string list) and return; otherwise close
the events array, export the classmap, write the metadata and close the
file.  Note the closed file handle stays in `self.appmap`. -/
def teardown (s : PState) : Except String (PState × List String) :=
  match s.appmap with
  | none => Except.ok (s, ["no appmap?\n"])
  | some f =>
    match fwrite f "],\"classMap\":[\n" with
    | Except.error m => Except.error m
    | Except.ok f1 =>
      match writeRoots f1 s.functions "" s.classmap.children with
      | Except.error m => Except.error m
      | Except.ok f2 =>
        match fwrite f2 "]" with
        | Except.error m => Except.error m
        | Except.ok f3 =>
          match fwrite f3 (",\"metadata\":" ++ metadataJson s ++ "\x7d\n") with
          | Except.error m => Except.error m
          | Except.ok f4 =>
            Except.ok ({ s with appmap := some { f4 with closed := true } }, [])

/-- The state right after `AppmapPrinter.__init__` (which calls `setup`) for
a sample pytest item: `event_id` is 1, the classmap is the bare root, the
function map is empty, no frame carries a token, and the output file is open
with the document preamble written. -/
def initState : PState :=
  { event_id := 1,
    classmap := CTree.node "root" "none" [],
    functions := { classPaths := [], entries := [] },
    frameTokens := [],
    appmap := some { chunks := ["\x7b\"version\": \"1.2\"", ",\"events\": ["],
                     closed := false },
    test_item_name := "test_sample",
    test_item_module := "test_mod" }

/-- The value the extractors below compute on an event, mirroring the
`fq_class` computed by `inspect_event` (`none` when the event would be
suppressed before reaching the classmap). -/
def eventFq (e : Event) : Option String :=
  match e.function_object with
  | none => none
  | some fo =>
    if !(fo.qualname.data.any (fun c => c == '.')) then none
    else some (fo.module ++ "." ++ (rpartitionDot fo.qualname).1)

/-- The `self.functions` keypath of the function node an accepted call event
registers: class keypath followed by the `path:lineno` location keypath. -/
def funKey (e : Event) : List String :=
  match eventFq e with
  | some fq => splitDot fq ++ splitDot (e.filename ++ ":" ++ Nat.repr e.firstlineno)
  | none => []

/-- Composition used to state the call/return correlation claim: process one
call event, then a list of interleaved events, then one return event, and
return the emitted call and return entries when all three are accepted. -/
def runPair (s : PState) (c : Event) (ms : List Event) (r : Event) :
    Option (Entry × Entry) :=
  match handleEvent s c with
  | Except.ok (s1, some ce) =>
    match runEvents s1 ms with
    | Except.ok (s2, _) =>
      match handleEvent s2 r with
      | Except.ok (_, some re) => some (ce, re)
      | _ => none
    | Except.error _ => none
  | _ => none

/-- The list `a, a+1, ..., a+n-1`. -/
def seqFrom : Nat → Nat → List Nat
  | _, 0 => []
  | a, n + 1 => a :: seqFrom (a + 1) n

/-- The classmap after one event, when no exception is raised. -/
def classmapAfter (s : PState) (e : Event) : Option CTree :=
  match handleEvent s e with
  | Except.ok (s1, _) => some s1.classmap
  | Except.error _ => none

/-- The emitted entry of one event (`some none` is an accepted run with a
suppressed entry), when no exception is raised. -/
def emittedAfter (s : PState) (e : Event) : Option (Option Entry) :=
  match handleEvent s e with
  | Except.ok (_, r) => some r
  | Except.error _ => none

/-- Boolean success test for `Except`. -/
def exceptIsOk : Except String (PState × List String) → Bool
  | Except.ok _ => true
  | Except.error _ => false

/-- A generic truthy runtime value (an int 1). -/
def vOne : PyVal :=
  { className := "builtins.int", classDict := [],
    strRepr := Except.ok "1", reprRepr := Except.ok "1", truthy := true }

/-- A falsy runtime value (an int 0): a value was produced but `if event.arg:`
is false on it. -/
def vZero : PyVal :=
  { className := "builtins.int", classDict := [],
    strRepr := Except.ok "0", reprRepr := Except.ok "0", truthy := false }

/-- An instance of class `mod.C` used as a receiver. -/
def vInst : PyVal :=
  { className := "mod.C", classDict := [("m", { isProperty := false, hasFget := false })],
    strRepr := Except.ok "<C>", reprRepr := Except.ok "<C>", truthy := true }

/-- A value whose `str` raises and whose `repr` succeeds. -/
def vStrFails : PyVal :=
  { className := "mod.Weird", classDict := [],
    strRepr := Except.error "boom", reprRepr := Except.ok "<weird repr>", truthy := true }

/-- A value whose `str` and `repr` both raise. -/
def vBothFail : PyVal :=
  { className := "mod.Weird", classDict := [],
    strRepr := Except.error "boom", reprRepr := Except.error "repr boom", truthy := true }

/-- A call event on frame 1 for method `mod.C.m` defined at `fileA:3`. -/
def cEv1 : Event :=
  { kind := "call", frameId := 1,
    function_object := some { qualname := "C.m", module := "mod" },
    filename := "fileA", firstlineno := 3,
    varnames := ["self", "x"],
    locals := fun nm => if nm == "self" then vInst else vOne,
    arg := none }

/-- The matching return event on frame 1 with a truthy return value. -/
def rEv1 : Event :=
  { kind := "return", frameId := 1,
    function_object := some { qualname := "C.m", module := "mod" },
    filename := "fileA", firstlineno := 3,
    varnames := ["self", "x"],
    locals := fun nm => if nm == "self" then vInst else vOne,
    arg := some vOne }

/-- A second call event for the same method (same class, path and first
line) on a different frame. -/
def cEv2 : Event :=
  { kind := "call", frameId := 2,
    function_object := some { qualname := "C.m", module := "mod" },
    filename := "fileA", firstlineno := 3,
    varnames := ["self", "y"],
    locals := fun nm => if nm == "self" then vInst else vOne,
    arg := none }

/-- A return event on frame 5 for a class the tracer never saw a call for. -/
def rEvNew : Event :=
  { kind := "return", frameId := 5,
    function_object := some { qualname := "C.m", module := "mod" },
    filename := "fileA", firstlineno := 3,
    varnames := [],
    locals := fun _ => vOne,
    arg := some vOne }

/-- A call event whose first declared parameter is named `cls` and whose
second is named `self`: a classmethod-style signature. -/
def cEvCls : Event :=
  { kind := "call", frameId := 3,
    function_object := some { qualname := "C.g", module := "mod" },
    filename := "fileB", firstlineno := 9,
    varnames := ["cls", "self", "x"],
    locals := fun nm => if nm == "self" then vInst else vOne,
    arg := none }

/-- A return event on frame 4 whose produced value is falsy (int 0). -/
def rEvFalsy : Event :=
  { kind := "return", frameId := 4,
    function_object := some { qualname := "C.h", module := "mod" },
    filename := "fileC", firstlineno := 2,
    varnames := [],
    locals := fun _ => vOne,
    arg := some vZero }

/-- A printer state in which class `mod.C` is already registered (its empty
function table exists) but no frame carries a token. -/
def sReg : PState :=
  { initState with functions := { classPaths := [["mod", "C"]], entries := [] } }

/-- A printer state in which frame 4 carries the correlation token 2. -/
def sTok : PState :=
  { initState with frameTokens := [(4, 2)] }

/-- A state after a completed `setup` whose appmap is `None`: `__init__` sets
`self.appmap = None` before `setup` runs, so this is the state when `setup`
never completed. -/
def noSetupState : PState :=
  { initState with appmap := none }

/-- The base entry of a call to `mod.C.__getattr__` at `fileD:4`, as
`inspect_event` would build it. -/
def entryGA : Entry :=
  { fq_class := "mod.C", id := 1, event := "call", defined_class := "C",
    method_id := "__getattr__", path := "fileD", lineno := 4 }

/-- A class dict defining a `property` with an `fget` under the name
`__getattr__`. -/
def cdGetter : List (String × ClassAttr) :=
  [("__getattr__", { isProperty := true, hasFget := true })]

/-- The parameter record built for a non-receiver positional parameter:
name, class, the fixed `req` kind and the truncated rendered value. -/
def valuedParam (locals : String → PyVal) (p : String) : Param :=
  { name := p, cls := (locals p).className, kind := "req",
    value := some (renderedValue (locals p)) }

/-- Python truthiness of `event.arg` (`None` and falsy values fail the
`if event.arg:` test). -/
def argTruthy : Option PyVal → Bool
  | some v => v.truthy
  | none => false

/-- C4: the spec claims the sanitized stem of the test name
`test: weird/name??` has no trailing underscore, but the third substitution
`re.sub('^_|^$', '', fname)` only strips a leading underscore (despite the
source comment saying leading and trailing), so the result ends in `_`. -/
theorem sanitize_keeps_trailing_underscore :
    sanitize "test: weird/name??" = "test_weird_name_" ∧
    (sanitize "test: weird/name??").data.getLastD ' ' = '_' := ⟨rfl, rfl⟩

/-- C3: after a completed setup the first teardown succeeds (no stderr
diagnostic), but a second teardown raises: `teardown` closes the file yet
leaves the handle in `self.appmap`, so the guard does not fire and the first
write hits a closed file.  Teardown when setup never completed only writes
the diagnostic and returns the state unchanged. -/
theorem teardown_twice_raises :
    (match teardown initState with
     | Except.ok (s1, errs) => errs = [] ∧ exceptIsOk (teardown s1) = false
     | Except.error _ => False) ∧
    teardown noSetupState = Except.ok (noSetupState, ["no appmap?\n"]) := by
  exact ⟨⟨rfl, rfl⟩, rfl⟩

/-- C6: when the owner class defines a computed-property getter under the
method name, `add_function` does not append the string `getter`: it appends
the whole list returned by `label_function`, which itself wraps `getter` in a
list, so the stored labels are `['getter', [['getter']]]` — the appended
element is a nested list, not the string `'getter'`. -/
theorem getter_label_is_nested_list :
    (add_function sReg "mod.C" entryGA (some cdGetter)).functions.entries =
      [(["mod", "C", "fileD:4"],
        { ftype := "function", name := "__getattr__", location := "fileD:4",
          static := false,
          labels := some [LabelVal.str "getter",
                          LabelVal.lst [LabelVal.lst [LabelVal.str "getter"]]] })] ∧
    LabelVal.lst [LabelVal.lst [LabelVal.str "getter"]] ≠ LabelVal.str "getter" :=
  ⟨rfl, fun h => LabelVal.noConfusion h⟩

/-- C5 counterexample: a return notification for a class the tracer has not
yet registered does mutate the classmap — `inspect_return` first runs
`inspect_event`, which calls `add_to_classmap`, before the correlation-token
check suppresses the entry. -/
theorem return_event_mutates_classmap :
    classmapAfter initState rEvNew ≠ some initState.classmap ∧
    emittedAfter initState rEvNew = some none := by
  constructor
  · intro h
    have h2 : CTree.node "root" "none"
        [CTree.node "mod" "package" [CTree.node "C" "class" []]] =
        CTree.node "root" "none" [] := Option.some.inj h
    have h3 := congrArg CTree.children h2
    simp [CTree.children] at h3
  · rfl

/-- C8: the value renderer always returns a string (it is total by
construction, mirroring the nested exception handlers): the primary `str`
result when it succeeds, else the `repr` result when that succeeds, else the
diagnostic string embedding the failure reason. -/
theorem display_string_layered_fallback (v : PyVal) :
    (∀ s, v.strRepr = Except.ok s → display_string v = s) ∧
    (∀ e r, v.strRepr = Except.error e → v.reprRepr = Except.ok r →
      display_string v = r) ∧
    (∀ e1 e2, v.strRepr = Except.error e1 → v.reprRepr = Except.error e2 →
      display_string v = "Failed rendering value as a string, " ++ e2) := by
  refine ⟨fun s h => ?_, fun e r h1 h2 => ?_, fun e1 e2 h1 h2 => ?_⟩
  · simp [display_string, h]
  · simp [display_string, h1, h2]
  · simp [display_string, h1, h2]

/-- Witness for the renderer claim: a value whose `str` raises is rendered
through the `repr` fallback. -/
theorem display_string_layered_fallback_witness :
    display_string vStrFails = "<weird repr>" :=
  (display_string_layered_fallback vStrFails).2.1 "boom" "<weird repr>" rfl rfl

theorem isPrefixOf_self (l : List String) : l.isPrefixOf l = true := by
  induction l with
  | nil => rfl
  | cons a t ih => simp [List.isPrefixOf, ih]

theorem isPrefixOf_append_right (l m : List String) :
    l.isPrefixOf (l ++ m) = true := by
  induction l with
  | nil => cases m <;> rfl
  | cons a t ih => simp [List.isPrefixOf, ih]

theorem append_not_isPrefixOf (l m : List String) (hm : m ≠ []) :
    (l ++ m).isPrefixOf l = false := by
  induction l with
  | nil =>
    cases m with
    | nil => exact absurd rfl hm
    | cons b t => rfl
  | cons a t ih => simp [List.isPrefixOf, ih]

theorem splitDotAux_ne_nil (l : List Char) : ∀ acc, splitDotAux l acc ≠ [] := by
  induction l with
  | nil => intro acc; simp [splitDotAux]
  | cons c cs ih =>
    intro acc
    unfold splitDotAux
    by_cases hc : c = '.'
    · simp [hc]
    · simp [hc, ih]

theorem splitDot_ne_nil (s : String) : splitDot s ≠ [] :=
  splitDotAux_ne_nil s.data []

theorem keyDefined_of_mem (fm : FunMap) (k : List String) (fe : FunctionEntry)
    (h : (k, fe) ∈ fm.entries) : keyDefined fm k = true := by
  unfold keyDefined
  rw [List.any_eq_true]
  exact ⟨k, List.mem_append_right _ (List.mem_map_of_mem Prod.fst h),
    isPrefixOf_self k⟩

theorem entriesAtKey_nil_of_not_defined (fm : FunMap) (k : List String)
    (h : keyDefined fm k = false) : entriesAtKey fm k = [] := by
  unfold entriesAtKey
  rw [List.map_eq_nil_iff, List.filter_eq_nil_iff]
  intro p hp
  intro hbeq
  have hk : p.1 = k := eq_of_beq hbeq
  have : keyDefined fm k = true := by
    apply keyDefined_of_mem fm k p.2
    rw [← hk]
    exact hp
  rw [h] at this
  exact Bool.noConfusion this

theorem getToken_cons (a : Nat × Nat) (l : List (Nat × Nat)) (g : Nat) :
    getToken (a :: l) g = if a.1 == g then some a.2 else getToken l g := by
  unfold getToken
  cases hab : (a.1 == g) <;> simp [List.find?_cons, hab]

theorem getToken_filter_ne (f g : Nat) (h : g ≠ f) :
    ∀ ts : List (Nat × Nat),
      getToken (ts.filter (fun x => x.1 != f)) g = getToken ts g := by
  intro ts
  induction ts with
  | nil => rfl
  | cons a l ih =>
    by_cases ha : a.1 = f
    · rw [List.filter_cons_of_neg (by simp [ha])]
      have h2 : (a.1 == g) = false := by
        simp only [beq_eq_false_iff_ne, ne_eq, ha]
        exact fun hh => h hh.symm
      rw [ih, getToken_cons]
      simp [h2]
    · rw [List.filter_cons_of_pos (by simp [ha])]
      rw [getToken_cons, getToken_cons, ih]

theorem getToken_setToken_self (ts : List (Nat × Nat)) (f v : Nat) :
    getToken (setToken ts f v) f = some v := by
  unfold setToken
  rw [getToken_cons]
  simp

theorem getToken_setToken_ne (ts : List (Nat × Nat)) (f v g : Nat) (h : g ≠ f) :
    getToken (setToken ts f v) g = getToken ts g := by
  unfold setToken
  rw [getToken_cons]
  have hfg : (f == g) = false := by
    simp only [beq_eq_false_iff_ne, ne_eq]
    exact fun hh => h hh.symm
  simp only [hfg, if_false]
  exact getToken_filter_ne f g h ts

theorem getToken_delToken_ne (ts : List (Nat × Nat)) (f g : Nat) (h : g ≠ f) :
    getToken (delToken ts f) g = getToken ts g :=
  getToken_filter_ne f g h ts

theorem add_to_classmap_event_id (s : PState) (fq : String) :
    (add_to_classmap s fq).event_id = s.event_id := by
  unfold add_to_classmap; split <;> rfl

theorem add_to_classmap_frameTokens (s : PState) (fq : String) :
    (add_to_classmap s fq).frameTokens = s.frameTokens := by
  unfold add_to_classmap; split <;> rfl

theorem add_to_classmap_appmap (s : PState) (fq : String) :
    (add_to_classmap s fq).appmap = s.appmap := by
  unfold add_to_classmap; split <;> rfl

theorem add_to_classmap_entries (s : PState) (fq : String) :
    (add_to_classmap s fq).functions.entries = s.functions.entries := by
  unfold add_to_classmap; split <;> rfl

theorem add_to_classmap_of_defined (s : PState) (fq : String)
    (h : keyDefined s.functions (splitDot fq) = true) :
    add_to_classmap s fq = s := by
  unfold add_to_classmap
  rw [if_pos h]

theorem keyDefined_add_to_classmap (s : PState) (fq : String) (k : List String)
    (hnp : k.isPrefixOf (splitDot fq) = false) :
    keyDefined (add_to_classmap s fq).functions k = keyDefined s.functions k := by
  unfold add_to_classmap
  split
  · rfl
  · simp [keyDefined, List.any_append, hnp]

theorem add_function_event_id (s : PState) (fq : String) (entry : Entry)
    (ic : Option (List (String × ClassAttr))) :
    (add_function s fq entry ic).event_id = s.event_id := by
  simp only [add_function]; split <;> rfl

theorem add_function_frameTokens (s : PState) (fq : String) (entry : Entry)
    (ic : Option (List (String × ClassAttr))) :
    (add_function s fq entry ic).frameTokens = s.frameTokens := by
  simp only [add_function]; split <;> rfl

theorem add_function_appmap (s : PState) (fq : String) (entry : Entry)
    (ic : Option (List (String × ClassAttr))) :
    (add_function s fq entry ic).appmap = s.appmap := by
  simp only [add_function]; split <;> rfl

theorem add_function_entries (s : PState) (fq : String) (entry : Entry)
    (ic : Option (List (String × ClassAttr))) :
    (add_function s fq entry ic).functions.entries =
      (if keyDefined s.functions
            (splitDot fq ++ splitDot (entry.path ++ ":" ++ Nat.repr entry.lineno))
       then s.functions.entries
       else s.functions.entries ++
         [(splitDot fq ++ splitDot (entry.path ++ ":" ++ Nat.repr entry.lineno),
           mkFunctionEntry entry.method_id (entry.path ++ ":" ++ Nat.repr entry.lineno) ic)]) := by
  simp only [add_function]; split <;> simp_all

theorem add_function_of_defined (s : PState) (fq : String) (entry : Entry)
    (ic : Option (List (String × ClassAttr)))
    (h : keyDefined s.functions
      (splitDot fq ++ splitDot (entry.path ++ ":" ++ Nat.repr entry.lineno)) = true) :
    add_function s fq entry ic = s := by
  simp only [add_function]
  rw [if_pos h]


theorem eventFq_congr (e e2 : Event) (h : e2.function_object = e.function_object) :
    eventFq e2 = eventFq e := by
  unfold eventFq
  rw [h]

theorem inspect_event_some (s : PState) (e : Event) (x : Entry) (s1 : PState)
    (h : inspect_event s e = some (x, s1)) :
    x.id = s.event_id ∧ x.event = e.kind ∧ x.path = e.filename ∧
    x.lineno = e.firstlineno ∧ x.static = none ∧ x.parameters = none ∧
    x.receiver = none ∧ x.thread_id = none ∧ x.parent_id = none ∧
    x.return_value = none ∧ eventFq e = some x.fq_class ∧
    s1 = add_to_classmap s x.fq_class := by
  unfold inspect_event at h
  split at h
  · exact Option.noConfusion h
  · next fo hfo =>
    split at h
    · exact Option.noConfusion h
    · next hdot =>
      obtain ⟨h1, h2⟩ := Prod.mk.inj (Option.some.inj h)
      subst h1
      subst h2
      refine ⟨rfl, rfl, rfl, rfl, rfl, rfl, rfl, rfl, rfl, rfl, ?_, rfl⟩
      simp only [eventFq, hfo]
      rw [if_neg hdot]

theorem inspect_event_none_of (s s2 : PState) (e e2 : Event)
    (hfo : e2.function_object = e.function_object)
    (h : inspect_event s2 e2 = none) : inspect_event s e = none := by
  unfold inspect_event at h ⊢
  split at h
  · next hnone =>
    rw [hfo] at hnone
    rw [hnone]
  · next fo hsome =>
    split at h
    · next hdot =>
      rw [hfo] at hsome
      simp [hsome, hdot]
    · exact Option.noConfusion h

theorem inspect_call_some (s : PState) (e : Event) (s1 : PState) (x : Entry)
    (h : inspect_call s e = Except.ok (s1, some x)) :
    ∃ b sb, inspect_event s e = some (b, sb) ∧ emptyCheck b = false ∧
      x = callEntry b e ∧
      s1 = add_function
             { sb with frameTokens := setToken sb.frameTokens e.frameId sb.event_id }
             (callEntry b e).fq_class (callEntry b e)
             (scanParams 0 e.varnames e.locals).2.1 := by
  unfold inspect_call at h
  split at h
  · next hie =>
    simp at h
  · next b sb hie =>
    split at h
    · exact Except.noConfusion h
    · next hec =>
      obtain ⟨h1, h2⟩ := Prod.mk.inj (Except.ok.inj h)
      have h3 := Option.some.inj h2
      exact ⟨b, sb, hie, by simpa using hec, h3.symm, h1.symm⟩

theorem inspect_call_none (s : PState) (e : Event) (s1 : PState)
    (h : inspect_call s e = Except.ok (s1, none)) :
    s1 = s ∧ inspect_event s e = none := by
  unfold inspect_call at h
  split at h
  · next hie =>
    obtain ⟨h1, _⟩ := Prod.mk.inj (Except.ok.inj h)
    exact ⟨h1.symm, hie⟩
  · next b sb hie =>
    split at h
    · exact Except.noConfusion h
    · next hec =>
      obtain ⟨_, h2⟩ := Prod.mk.inj (Except.ok.inj h)
      exact Option.noConfusion h2

theorem inspect_return_cases (s : PState) (e : Event) (s1 : PState) (r : Option Entry)
    (h : inspect_return s e = Except.ok (s1, r)) :
    (r = none ∧ (s1 = s ∨ ∃ b, inspect_event s e = some (b, s1))) ∨
    (∃ b sb pid, r = some (returnEntry b e pid) ∧ inspect_event s e = some (b, sb) ∧
      getToken sb.frameTokens e.frameId = some pid ∧
      s1 = { sb with frameTokens := delToken sb.frameTokens e.frameId }) := by
  unfold inspect_return at h
  split at h
  · next hie =>
    obtain ⟨h1, h2⟩ := Prod.mk.inj (Except.ok.inj h)
    exact Or.inl ⟨h2.symm, Or.inl h1.symm⟩
  · next b sb hie =>
    split at h
    · next htok =>
      obtain ⟨h1, h2⟩ := Prod.mk.inj (Except.ok.inj h)
      subst h1
      exact Or.inl ⟨h2.symm, Or.inr ⟨b, hie⟩⟩
    · next pid htok =>
      obtain ⟨h1, h2⟩ := Prod.mk.inj (Except.ok.inj h)
      exact Or.inr ⟨b, sb, pid, h2.symm, hie, htok, h1.symm⟩

theorem callEntry_base (b : Entry) (e : Event) :
    (callEntry b e).id = b.id ∧ (callEntry b e).fq_class = b.fq_class ∧
    (callEntry b e).event = b.event ∧ (callEntry b e).defined_class = b.defined_class ∧
    (callEntry b e).method_id = b.method_id ∧ (callEntry b e).path = b.path ∧
    (callEntry b e).lineno = b.lineno ∧ (callEntry b e).parent_id = b.parent_id ∧
    (callEntry b e).return_value = b.return_value := by
  cases hs : (scanParams 0 e.varnames e.locals).1 <;> simp [callEntry, hs]

theorem returnEntry_base (b : Entry) (e : Event) (pid : Nat) :
    (returnEntry b e pid).id = b.id ∧ (returnEntry b e pid).parent_id = some pid ∧
    (b.return_value = none →
      (returnEntry b e pid).return_value.isSome = argTruthy e.arg) := by
  cases harg : e.arg with
  | none =>
    refine ⟨by simp [returnEntry, harg], by simp [returnEntry, harg], fun h => ?_⟩
    simp [returnEntry, harg, argTruthy, h]
  | some v =>
    by_cases ht : v.truthy = true
    · refine ⟨by simp [returnEntry, harg, ht], by simp [returnEntry, harg, ht], fun h => ?_⟩
      simp [returnEntry, harg, ht, argTruthy]
    · have ht2 : v.truthy = false := by
        cases hv : v.truthy
        · rfl
        · exact absurd hv ht
      refine ⟨by simp [returnEntry, harg, ht2], by simp [returnEntry, harg, ht2], fun h => ?_⟩
      simp [returnEntry, harg, ht2, argTruthy, h]

theorem scanParams_pos (locals : String → PyVal) :
    ∀ (vn : List String) (i : Nat), i ≠ 0 →
      scanParams i vn locals = (none, none, vn.map (valuedParam locals)) := by
  intro vn
  induction vn with
  | nil => intro i hi; rfl
  | cons p rest ih =>
    intro i hi
    have hz : (i == 0) = false := by simpa using hi
    unfold scanParams
    rw [hz]
    simp only [Bool.false_and, Bool.false_eq_true, if_false]
    rw [ih (i + 1) (by omega)]
    rfl

theorem scanParams_zero_self (locals : String → PyVal) (rest : List String) :
    scanParams 0 ("self" :: rest) locals =
      (some { name := "self", cls := (locals "self").className, kind := "req",
              value := none },
       some (locals "self").classDict, rest.map (valuedParam locals)) := by
  unfold scanParams
  rw [scanParams_pos locals rest 1 (by omega)]
  simp

theorem scanParams_zero_other (locals : String → PyVal) (p : String)
    (rest : List String) (hp : p ≠ "self") :
    scanParams 0 (p :: rest) locals =
      (none, none, (p :: rest).map (valuedParam locals)) := by
  have hz : (p == "self") = false := by simpa using hp
  unfold scanParams
  rw [hz]
  simp only [Bool.and_false, Bool.false_eq_true, if_false]
  rw [scanParams_pos locals rest 1 (by omega)]
  rfl

theorem callEntry_of_scan_none (b : Entry) (e : Event)
    (h : (scanParams 0 e.varnames e.locals).1 = none) :
    callEntry b e = { b with static := some true,
                             parameters := some (scanParams 0 e.varnames e.locals).2.2,
                             thread_id := some 1 } := by
  simp [callEntry, h]

theorem callEntry_of_scan_some (b : Entry) (e : Event) (r : Param)
    (h : (scanParams 0 e.varnames e.locals).1 = some r) :
    callEntry b e = { b with static := some false,
                             parameters := some (scanParams 0 e.varnames e.locals).2.2,
                             receiver := some r,
                             thread_id := some 1 } := by
  simp [callEntry, h]

theorem handleEvent_cases (s : PState) (e : Event) (s1 : PState) (r : Option Entry)
    (h : handleEvent s e = Except.ok (s1, r)) :
    (r = none ∧ ((e.kind ≠ "call" ∧ e.kind ≠ "return" ∧ s1 = s) ∨
                 (e.kind = "call" ∧ inspect_call s e = Except.ok (s1, none)) ∨
                 (e.kind = "return" ∧ inspect_return s e = Except.ok (s1, none)))) ∨
    (∃ s0 x, r = some x ∧
       ((e.kind = "call" ∧ inspect_call s e = Except.ok (s0, some x)) ∨
        (e.kind = "return" ∧ inspect_return s e = Except.ok (s0, some x))) ∧
       s1.event_id = s0.event_id + 1 ∧ s1.frameTokens = s0.frameTokens ∧
       s1.functions = s0.functions ∧ s1.classmap = s0.classmap) := by
  unfold handleEvent at h
  split at h
  · next hcond =>
    obtain ⟨h1, h2⟩ := Prod.mk.inj (Except.ok.inj h)
    have hc1 : e.kind ≠ "call" := by
      intro hk
      rw [hk] at hcond
      simp at hcond
    have hc2 : e.kind ≠ "return" := by
      intro hk
      rw [hk] at hcond
      simp at hcond
    exact Or.inl ⟨h2.symm, Or.inl ⟨hc1, hc2, h1.symm⟩⟩
  · next hcond =>
    have hkind : e.kind = "call" ∨ e.kind = "return" := by
      by_cases hk : e.kind = "call"
      · exact Or.inl hk
      · refine Or.inr ?_
        simp only [Bool.and_eq_true, bne_iff_ne, ne_eq] at hcond
        rcases not_and_or.mp hcond with hc | hc
        · exact absurd (not_not.mp hc) hk
        · exact not_not.mp hc
    split at h
    · exact Except.noConfusion h
    · next s0 heq =>
      obtain ⟨h1, h2⟩ := Prod.mk.inj (Except.ok.inj h)
      refine Or.inl ⟨h2.symm, ?_⟩
      rcases hkind with hk | hk
      · refine Or.inr (Or.inl ⟨hk, ?_⟩)
        rw [← h1, ← heq]
        simp [hk]
      · refine Or.inr (Or.inr ⟨hk, ?_⟩)
        rw [← h1, ← heq]
        have hck : (e.kind == "call") = false := by simp [hk]
        simp [hck]
    · next s0 evt heq =>
      split at h
      · exact Except.noConfusion h
      · next f hap =>
        split at h
        · exact Except.noConfusion h
        · next f1 hw1 =>
          split at h
          · exact Except.noConfusion h
          · next f2 hw2 =>
            obtain ⟨h1, h2⟩ := Prod.mk.inj (Except.ok.inj h)
            refine Or.inr ⟨s0, evt, h2.symm, ?_, ?_, ?_, ?_, ?_⟩
            · rcases hkind with hk | hk
              · refine Or.inl ⟨hk, ?_⟩
                rw [← heq]
                simp [hk]
              · refine Or.inr ⟨hk, ?_⟩
                rw [← heq]
                have hck : (e.kind == "call") = false := by simp [hk]
                simp [hck]
            · rw [← h1]
            · rw [← h1]
            · rw [← h1]
            · rw [← h1]

theorem inspect_call_facts (s : PState) (e : Event) (s1 : PState) (x : Entry)
    (h : inspect_call s e = Except.ok (s1, some x)) :
    x.id = s.event_id ∧ x.path = e.filename ∧ x.lineno = e.firstlineno ∧
    eventFq e = some x.fq_class ∧ x.parent_id = none ∧
    s1.event_id = s.event_id ∧ s1.appmap = s.appmap ∧
    getToken s1.frameTokens e.frameId = some s.event_id ∧
    (∀ g, g ≠ e.frameId → getToken s1.frameTokens g = getToken s.frameTokens g) := by
  obtain ⟨b, sb, hie, hec, hx, hs⟩ := inspect_call_some s e s1 x h
  obtain ⟨hid, hev, hpath, hline, _, _, _, _, hpid, hrv, hfq, hsb⟩ :=
    inspect_event_some s e b sb hie
  obtain ⟨cid, cfq, cev, cdc, cmi, cpath, cline, cpid, crv⟩ := callEntry_base b e
  have hsb_tok : sb.frameTokens = s.frameTokens := by
    rw [hsb]; exact add_to_classmap_frameTokens s b.fq_class
  have hsb_id : sb.event_id = s.event_id := by
    rw [hsb]; exact add_to_classmap_event_id s b.fq_class
  have hsb_ap : sb.appmap = s.appmap := by
    rw [hsb]; exact add_to_classmap_appmap s b.fq_class
  have hs_tok : s1.frameTokens = setToken s.frameTokens e.frameId s.event_id := by
    rw [hs, add_function_frameTokens]
    simp [hsb_tok, hsb_id]
  refine ⟨?_, ?_, ?_, ?_, ?_, ?_, ?_, ?_, ?_⟩
  · rw [hx, cid, hid]
  · rw [hx, cpath, hpath]
  · rw [hx, cline, hline]
  · rw [hfq, hx, cfq]
  · rw [hx, cpid, hpid]
  · rw [hs, add_function_event_id]; simp [hsb_id]
  · rw [hs, add_function_appmap]; simp [hsb_ap]
  · rw [hs_tok]; exact getToken_setToken_self _ _ _
  · intro g hg
    rw [hs_tok]
    exact getToken_setToken_ne _ _ _ _ hg

theorem inspect_return_facts (s : PState) (e : Event) (s1 : PState) (x : Entry)
    (h : inspect_return s e = Except.ok (s1, some x)) :
    x.id = s.event_id ∧ x.parent_id = getToken s.frameTokens e.frameId ∧
    x.return_value.isSome = argTruthy e.arg ∧
    s1.event_id = s.event_id ∧ s1.appmap = s.appmap ∧
    s1.functions.entries = s.functions.entries ∧
    (∀ g, g ≠ e.frameId → getToken s1.frameTokens g = getToken s.frameTokens g) := by
  rcases inspect_return_cases s e s1 (some x) h with ⟨hnone, _⟩ |
    ⟨b, sb, pid, hr, hie, htok, hs⟩
  · exact Option.noConfusion hnone
  · obtain ⟨hid, _, _, _, _, _, _, _, _, hrv0, _, hsb⟩ := inspect_event_some s e b sb hie
    obtain ⟨rid, rpid, rrv⟩ := returnEntry_base b e pid
    have hx : x = returnEntry b e pid := Option.some.inj hr
    have hsb_tok : sb.frameTokens = s.frameTokens := by
      rw [hsb]; exact add_to_classmap_frameTokens s b.fq_class
    have htok2 : getToken s.frameTokens e.frameId = some pid := by
      rw [← hsb_tok]; exact htok
    refine ⟨?_, ?_, ?_, ?_, ?_, ?_, ?_⟩
    · rw [hx, rid, hid]
    · rw [hx, rpid, htok2]
    · rw [hx]; exact rrv hrv0
    · rw [hs]
      show sb.event_id = s.event_id
      rw [hsb]; exact add_to_classmap_event_id s b.fq_class
    · rw [hs]
      show sb.appmap = s.appmap
      rw [hsb]; exact add_to_classmap_appmap s b.fq_class
    · rw [hs]
      show sb.functions.entries = s.functions.entries
      rw [hsb]; exact add_to_classmap_entries s b.fq_class
    · intro g hg
      rw [hs]
      show getToken (delToken sb.frameTokens e.frameId) g = getToken s.frameTokens g
      rw [getToken_delToken_ne sb.frameTokens e.frameId g hg, hsb_tok]

theorem handleEvent_emit_id (s : PState) (e : Event) (s1 : PState) (x : Entry)
    (h : handleEvent s e = Except.ok (s1, some x)) :
    x.id = s.event_id ∧ s1.event_id = s.event_id + 1 := by
  rcases handleEvent_cases s e s1 (some x) h with ⟨hn, _⟩ |
    ⟨s0, x0, hr, hdisp, hid1, _, _, _⟩
  · exact Option.noConfusion hn
  · have hx : x = x0 := Option.some.inj hr
    subst hx
    rcases hdisp with ⟨_, hic⟩ | ⟨_, hir⟩
    · obtain ⟨h1, _, _, _, _, h6, _, _, _⟩ := inspect_call_facts s e s0 x hic
      exact ⟨h1, by rw [hid1, h6]⟩
    · obtain ⟨h1, _, _, h4, _, _, _⟩ := inspect_return_facts s e s0 x hir
      exact ⟨h1, by rw [hid1, h4]⟩

theorem handleEvent_none_id (s : PState) (e : Event) (s1 : PState)
    (h : handleEvent s e = Except.ok (s1, none)) :
    s1.event_id = s.event_id ∧ s1.frameTokens = s.frameTokens ∧
    s1.functions.entries = s.functions.entries := by
  rcases handleEvent_cases s e s1 none h with ⟨_, hcase⟩ | ⟨s0, x, hr, _, _⟩
  · rcases hcase with ⟨_, _, hse⟩ | ⟨_, hic⟩ | ⟨_, hir⟩
    · rw [hse]; exact ⟨rfl, rfl, rfl⟩
    · obtain ⟨hse, _⟩ := inspect_call_none s e s1 hic
      rw [hse]; exact ⟨rfl, rfl, rfl⟩
    · rcases inspect_return_cases s e s1 none hir with ⟨_, hcase2⟩ | ⟨b, sb, pid, hr2, _⟩
      · rcases hcase2 with hse | ⟨b, hie⟩
        · rw [hse]; exact ⟨rfl, rfl, rfl⟩
        · obtain ⟨_, _, _, _, _, _, _, _, _, _, _, hsb⟩ := inspect_event_some s e b s1 hie
          rw [hsb]
          exact ⟨add_to_classmap_event_id _ _, add_to_classmap_frameTokens _ _,
            add_to_classmap_entries _ _⟩
      · exact Option.noConfusion hr2
  · exact Option.noConfusion hr

theorem handleEvent_preserve_token (s : PState) (e : Event) (s1 : PState)
    (r : Option Entry) (g : Nat) (h : handleEvent s e = Except.ok (s1, r))
    (hg : g ≠ e.frameId) :
    getToken s1.frameTokens g = getToken s.frameTokens g := by
  rcases handleEvent_cases s e s1 r h with ⟨_, hcase⟩ |
    ⟨s0, x, _, hdisp, _, htok, _, _⟩
  · rcases hcase with ⟨_, _, hse⟩ | ⟨_, hic⟩ | ⟨_, hir⟩
    · rw [hse]
    · obtain ⟨hse, _⟩ := inspect_call_none s e s1 hic
      rw [hse]
    · rcases inspect_return_cases s e s1 none hir with ⟨_, hcase2⟩ | ⟨_, _, _, hr2, _⟩
      · rcases hcase2 with hse | ⟨b, hie⟩
        · rw [hse]
        · obtain ⟨_, _, _, _, _, _, _, _, _, _, _, hsb⟩ := inspect_event_some s e b s1 hie
          rw [hsb, add_to_classmap_frameTokens]
      · exact Option.noConfusion hr2
  · rw [htok]
    rcases hdisp with ⟨_, hic⟩ | ⟨_, hir⟩
    · obtain ⟨_, _, _, _, _, _, _, _, hfor⟩ := inspect_call_facts s e s0 x hic
      exact hfor g hg
    · obtain ⟨_, _, _, _, _, _, hfor⟩ := inspect_return_facts s e s0 x hir
      exact hfor g hg

theorem handleEvent_call_token (s : PState) (e : Event) (s1 : PState) (x : Entry)
    (hk : e.kind = "call") (h : handleEvent s e = Except.ok (s1, some x)) :
    getToken s1.frameTokens e.frameId = some x.id := by
  rcases handleEvent_cases s e s1 (some x) h with ⟨hn, _⟩ |
    ⟨s0, x0, hr, hdisp, _, htok, _, _⟩
  · exact Option.noConfusion hn
  · have hx : x = x0 := Option.some.inj hr
    subst hx
    rcases hdisp with ⟨_, hic⟩ | ⟨hkr, _⟩
    · obtain ⟨hid, _, _, _, _, _, _, hself, _⟩ := inspect_call_facts s e s0 x hic
      rw [htok, hself, hid]
    · rw [hk] at hkr
      exact absurd hkr (by decide)

theorem handleEvent_return_entry_facts (s : PState) (e : Event) (s1 : PState)
    (x : Entry) (hk : e.kind = "return")
    (h : handleEvent s e = Except.ok (s1, some x)) :
    x.parent_id = getToken s.frameTokens e.frameId ∧
    x.return_value.isSome = argTruthy e.arg := by
  rcases handleEvent_cases s e s1 (some x) h with ⟨hn, _⟩ |
    ⟨s0, x0, hr, hdisp, _⟩
  · exact Option.noConfusion hn
  · have hx : x = x0 := Option.some.inj hr
    subst hx
    rcases hdisp with ⟨hkc, _⟩ | ⟨_, hir⟩
    · rw [hk] at hkc
      exact absurd hkc (by decide)
    · obtain ⟨_, h2, h3, _, _, _, _⟩ := inspect_return_facts s e s0 x hir
      exact ⟨h2, h3⟩

theorem runEvents_preserve_token (g : Nat) :
    ∀ (es : List Event) (s s2 : PState) (out : List Entry),
      (∀ m ∈ es, m.frameId ≠ g) →
      runEvents s es = Except.ok (s2, out) →
      getToken s2.frameTokens g = getToken s.frameTokens g := by
  intro es
  induction es with
  | nil =>
    intro s s2 out _ h
    obtain ⟨h1, _⟩ := Prod.mk.inj (Except.ok.inj h)
    rw [← h1]
  | cons e es ih =>
    intro s s2 out hm h
    unfold runEvents at h
    split at h
    · exact Except.noConfusion h
    · next s1 r heq =>
      split at h
      · exact Except.noConfusion h
      · next s3 out3 heq2 =>
        obtain ⟨h1, _⟩ := Prod.mk.inj (Except.ok.inj h)
        have hg : g ≠ e.frameId := fun hh => (hm e (List.mem_cons_self e es)) hh.symm
        have t1 := handleEvent_preserve_token s e s1 r g heq hg
        have t2 := ih s1 s3 out3 (fun m hm2 => hm m (List.mem_cons_of_mem e hm2)) heq2
        rw [← h1, t2, t1]

theorem runEvents_ids_aux :
    ∀ (es : List Event) (s s2 : PState) (out : List Entry),
      runEvents s es = Except.ok (s2, out) →
      out.map Entry.id = seqFrom s.event_id out.length ∧
      s2.event_id = s.event_id + out.length := by
  intro es
  induction es with
  | nil =>
    intro s s2 out h
    obtain ⟨h1, h2⟩ := Prod.mk.inj (Except.ok.inj h)
    rw [← h1, ← h2]
    exact ⟨rfl, rfl⟩
  | cons e es ih =>
    intro s s2 out h
    unfold runEvents at h
    split at h
    · exact Except.noConfusion h
    · next s1 r heq =>
      split at h
      · exact Except.noConfusion h
      · next s3 out3 heq2 =>
        obtain ⟨h1, h2⟩ := Prod.mk.inj (Except.ok.inj h)
        obtain ⟨ih1, ih2⟩ := ih s1 s3 out3 heq2
        cases r with
        | none =>
          obtain ⟨hid, _, _⟩ := handleEvent_none_id s e s1 heq
          rw [← h1, ← h2]
          constructor
          · simp only [List.nil_append]
            rw [ih1, hid]
          · simp only [List.nil_append]
            rw [ih2, hid]
        | some x =>
          obtain ⟨hxid, hsid⟩ := handleEvent_emit_id s e s1 x heq
          rw [← h1, ← h2]
          constructor
          · simp only [List.singleton_append, List.map_cons, List.length_cons]
            rw [ih1, hsid, hxid]
            rfl
          · simp only [List.singleton_append, List.length_cons]
            rw [ih2, hsid]
            omega

/-- C1: for an accepted call on a frame, followed by any events on other
frames, followed by an accepted return on that frame, the return entry's
`parent_id` is exactly the id of the call entry: `inspect_call` stamps the
entry id onto the frame as the correlation token and `inspect_return` pops
that token into `parent_id`. -/
theorem return_parent_id_matches_call_id (s : PState) (c : Event) (ms : List Event)
    (r : Event) (hc : c.kind = "call") (hr : r.kind = "return")
    (hfr : r.frameId = c.frameId) (hm : ∀ m ∈ ms, m.frameId ≠ c.frameId) :
    (runPair s c ms r).map (fun p => p.2.parent_id) =
      (runPair s c ms r).map (fun p => some p.1.id) := by
  cases h1 : handleEvent s c with
  | error m => unfold runPair; rw [h1]; simp
  | ok p1 =>
    obtain ⟨s1, r1⟩ := p1
    cases r1 with
    | none => unfold runPair; rw [h1]; simp
    | some ce =>
      cases h2 : runEvents s1 ms with
      | error m => unfold runPair; rw [h1]; simp [h2]
      | ok p2 =>
        obtain ⟨s2, out2⟩ := p2
        cases h3 : handleEvent s2 r with
        | error m => unfold runPair; rw [h1]; simp [h2, h3]
        | ok p3 =>
          obtain ⟨s3, r3⟩ := p3
          cases r3 with
          | none => unfold runPair; rw [h1]; simp [h2, h3]
          | some re =>
            have htok1 : getToken s1.frameTokens c.frameId = some ce.id :=
              handleEvent_call_token s c s1 ce hc h1
            have htok2 : getToken s2.frameTokens c.frameId =
                getToken s1.frameTokens c.frameId :=
              runEvents_preserve_token c.frameId ms s1 s2 out2 hm h2
            obtain ⟨hpar, _⟩ := handleEvent_return_entry_facts s2 r s3 re hr h3
            have hre : re.parent_id = some ce.id := by
              rw [hpar, hfr, htok2, htok1]
            unfold runPair
            rw [h1]
            simp [h2, h3, hre]

/-- Witness for the correlation claim: one concrete accepted call/return
pair on frame 1 from the initial state; both entries are emitted and the
return's `parent_id` is the call's id. -/
theorem return_parent_id_matches_call_id_witness :
    (runPair initState cEv1 [] rEv1).isSome = true ∧
    ((runPair initState cEv1 [] rEv1).map (fun p => p.2.parent_id) =
      (runPair initState cEv1 [] rEv1).map (fun p => some p.1.id)) :=
  ⟨rfl, return_parent_id_matches_call_id initState cEv1 [] rEv1 rfl rfl rfl
    (fun m hm => absurd hm (List.not_mem_nil m))⟩

/-- C2: over any notification sequence processed from the freshly
initialized printer, the emitted entries' ids are exactly 1, 2, 3, ... in
emission order: calls and returns share one counter that starts at 1, each
non-suppressed emission receives the current counter value as its id, and
the counter is incremented by exactly 1 only on a non-suppressed emission
(so it ends at one past the number of emitted entries). -/
theorem entry_ids_sequential (es : List Event) :
    match runEvents initState es with
    | Except.ok (s2, out) =>
        out.map Entry.id = seqFrom 1 out.length ∧ s2.event_id = out.length + 1
    | Except.error _ => True := by
  cases hr : runEvents initState es with
  | error m => trivial
  | ok p =>
    obtain ⟨s2, out⟩ := p
    obtain ⟨h1, h2⟩ := runEvents_ids_aux es initState s2 out hr
    have hinit : initState.event_id = 1 := rfl
    rw [hinit] at h1 h2
    exact ⟨h1, by rw [h2]; omega⟩

/-- C5 (amended): a return notification never adds or changes function
entries, and it leaves the classmap and the whole function map unchanged
whenever the class named by the event is already registered (in particular
for every accepted return, whose call already registered the class); only a
return for a class never seen before mutates the classmap, by registering
the package/class chain with an empty function table. -/
theorem return_classmap_readonly_amended (s : PState) (e : Event) (s1 : PState)
    (r : Option Entry) (hk : e.kind = "return")
    (h : handleEvent s e = Except.ok (s1, r)) :
    s1.functions.entries = s.functions.entries ∧
    ((match eventFq e with
      | some fq => keyDefined s.functions (splitDot fq) = true
      | none => True) → s1.classmap = s.classmap ∧ s1.functions = s.functions) := by
  rcases handleEvent_cases s e s1 r h with ⟨_, hcase⟩ |
    ⟨s0, x, _, hdisp, _, _, hfun, hcm⟩
  · rcases hcase with ⟨_, _, hse⟩ | ⟨hkc, _⟩ | ⟨_, hir⟩
    · rw [hse]; exact ⟨rfl, fun _ => ⟨rfl, rfl⟩⟩
    · rw [hk] at hkc
      exact absurd hkc (by decide)
    · rcases inspect_return_cases s e s1 none hir with ⟨_, hcase2⟩ | ⟨_, _, _, hr2, _⟩
      · rcases hcase2 with hse | ⟨b, hie⟩
        · rw [hse]; exact ⟨rfl, fun _ => ⟨rfl, rfl⟩⟩
        · obtain ⟨_, _, _, _, _, _, _, _, _, _, hfq, hsb⟩ :=
            inspect_event_some s e b s1 hie
          constructor
          · rw [hsb]; exact add_to_classmap_entries s b.fq_class
          · intro hreg
            rw [hfq] at hreg
            have : add_to_classmap s b.fq_class = s :=
              add_to_classmap_of_defined s b.fq_class hreg
            rw [hsb, this]
            exact ⟨rfl, rfl⟩
      · exact Option.noConfusion hr2
  · rcases hdisp with ⟨hkc, _⟩ | ⟨_, hir⟩
    · rw [hk] at hkc
      exact absurd hkc (by decide)
    · rcases inspect_return_cases s e s0 (some x) hir with ⟨hn, _⟩ |
        ⟨b, sb, pid, _, hie, _, hs0⟩
      · exact Option.noConfusion hn
      · obtain ⟨_, _, _, _, _, _, _, _, _, _, hfq, hsb⟩ :=
          inspect_event_some s e b sb hie
        constructor
        · rw [hfun, hs0]
          show sb.functions.entries = s.functions.entries
          rw [hsb]; exact add_to_classmap_entries s b.fq_class
        · intro hreg
          rw [hfq] at hreg
          have hid2 : add_to_classmap s b.fq_class = s :=
            add_to_classmap_of_defined s b.fq_class hreg
          have hsbs : sb = s := by rw [hsb, hid2]
          constructor
          · rw [hcm, hs0]
            show sb.classmap = s.classmap
            rw [hsbs]
          · rw [hfun, hs0]
            show sb.functions = s.functions
            rw [hsbs]

/-- Witness for the amended classmap claim: a suppressed return for the
already-registered class `mod.C` leaves the whole state unchanged. -/
theorem return_classmap_readonly_amended_witness :
    sReg.functions.entries = sReg.functions.entries ∧
    ((match eventFq rEvNew with
      | some fq => keyDefined sReg.functions (splitDot fq) = true
      | none => True) → sReg.classmap = sReg.classmap ∧ sReg.functions = sReg.functions) :=
  return_classmap_readonly_amended sReg rEvNew sReg none rfl rfl

/-- C9: an emitted return entry carries a `return_value` field exactly when
the notification's returned value is truthy (`if event.arg:`): a produced
but falsy value — `None`, `False`, `0`, an empty string or collection —
yields a return entry without the field. -/
theorem return_value_iff_truthy (s : PState) (e : Event) (hk : e.kind = "return") :
    match handleEvent s e with
    | Except.ok (_, some x) => x.return_value.isSome = argTruthy e.arg
    | _ => True := by
  cases h : handleEvent s e with
  | error m => trivial
  | ok p =>
    obtain ⟨s1, r⟩ := p
    cases r with
    | none => trivial
    | some x =>
      exact (handleEvent_return_entry_facts s e s1 x hk h).2

/-- Witness for the truthiness claim: a return whose produced value is the
falsy int 0 is emitted with no `return_value` field. -/
theorem return_value_iff_truthy_witness :
    (match handleEvent sTok rEvFalsy with
     | Except.ok (_, some x) => x.return_value.isSome = argTruthy rEvFalsy.arg
     | _ => True) ∧
    (match handleEvent sTok rEvFalsy with
     | Except.ok (_, some x) => x.return_value = none
     | _ => False) :=
  ⟨return_value_iff_truthy sTok rEvFalsy rfl, rfl⟩

/-- C10: on an emitted call entry, a receiver is detected exactly when the
first declared positional parameter is literally named `self` (`i == 0 and
p == 'self'`): then the entry is non-static with that parameter moved to
`receiver` (no rendered value) and excluded from `parameters`; a first
parameter with any other name (e.g. `cls`), or `self` in a later position,
stays in `parameters` with a rendered value and the entry remains static. -/
theorem receiver_only_for_first_self (s : PState) (e : Event) (hk : e.kind = "call") :
    match handleEvent s e with
    | Except.ok (_, some x) =>
      (∀ rest, e.varnames = "self" :: rest →
        x.static = some false ∧
        x.receiver = some { name := "self", cls := (e.locals "self").className,
                            kind := "req", value := none } ∧
        x.parameters = some (rest.map (valuedParam e.locals))) ∧
      ((∀ p rest, e.varnames = p :: rest → p ≠ "self") →
        x.static = some true ∧ x.receiver = none ∧
        x.parameters = some (e.varnames.map (valuedParam e.locals)))
    | _ => True := by
  cases h : handleEvent s e with
  | error m => trivial
  | ok p =>
    obtain ⟨s1, r⟩ := p
    cases r with
    | none => trivial
    | some x =>
      suffices hsuf :
          (∀ rest, e.varnames = "self" :: rest →
            x.static = some false ∧
            x.receiver = some { name := "self", cls := (e.locals "self").className,
                                kind := "req", value := none } ∧
            x.parameters = some (rest.map (valuedParam e.locals))) ∧
          ((∀ p rest, e.varnames = p :: rest → p ≠ "self") →
            x.static = some true ∧ x.receiver = none ∧
            x.parameters = some (e.varnames.map (valuedParam e.locals))) by
        exact hsuf
      rcases handleEvent_cases s e s1 (some x) h with ⟨hn, _⟩ |
        ⟨s0, x0, hr, hdisp, _⟩
      · exact Option.noConfusion hn
      · have hx : x = x0 := Option.some.inj hr
        subst hx
        rcases hdisp with ⟨_, hic⟩ | ⟨hkr, _⟩
        swap
        · rw [hk] at hkr
          exact absurd hkr (by decide)
        obtain ⟨b, sb, hie, _, hxc, _⟩ := inspect_call_some s e s0 x hic
        obtain ⟨_, _, _, _, _, _, hbrecv, _, _, _, _, _⟩ :=
          inspect_event_some s e b sb hie
        constructor
        · intro rest hv
          have hscan : scanParams 0 e.varnames e.locals =
              (some { name := "self", cls := (e.locals "self").className,
                      kind := "req", value := none },
               some (e.locals "self").classDict, rest.map (valuedParam e.locals)) := by
            rw [hv]
            exact scanParams_zero_self e.locals rest
          have hp1 : (scanParams 0 e.varnames e.locals).1 =
              some { name := "self", cls := (e.locals "self").className,
                     kind := "req", value := none } := by rw [hscan]
          have hcall := callEntry_of_scan_some b e _ hp1
          refine ⟨?_, ?_, ?_⟩
          · rw [hxc, hcall]
          · rw [hxc, hcall]
          · rw [hxc, hcall]
            show some (scanParams 0 e.varnames e.locals).2.2 =
              some (rest.map (valuedParam e.locals))
            rw [hscan]
        · intro hns
          have hsc : (scanParams 0 e.varnames e.locals).1 = none ∧
              (scanParams 0 e.varnames e.locals).2.2 =
                e.varnames.map (valuedParam e.locals) := by
            cases hv : e.varnames with
            | nil => exact ⟨rfl, rfl⟩
            | cons p rest =>
              have hp : p ≠ "self" := hns p rest hv
              rw [scanParams_zero_other e.locals p rest hp]
              exact ⟨rfl, rfl⟩
          have hcall := callEntry_of_scan_none b e hsc.1
          refine ⟨?_, ?_, ?_⟩
          · rw [hxc, hcall]
          · rw [hxc, hcall]
            exact hbrecv
          · rw [hxc, hcall]
            show some (scanParams 0 e.varnames e.locals).2.2 =
              some (e.varnames.map (valuedParam e.locals))
            rw [hsc.2]

/-- Witness for the receiver-detection claim: a call whose first parameter
is `cls` and whose second is `self` is emitted static, with no receiver and
with all three parameters (rendered values included) in `parameters`. -/
theorem receiver_only_for_first_self_witness :
    (match handleEvent initState cEvCls with
     | Except.ok (_, some x) =>
       x.static = some true ∧ x.receiver = none ∧
       x.parameters = some (cEvCls.varnames.map (valuedParam cEvCls.locals))
     | _ => False) := by
  have h := receiver_only_for_first_self initState cEvCls rfl
  have hns : ∀ p rest, cEvCls.varnames = p :: rest → p ≠ "self" := by
    intro p rest hpr
    obtain ⟨hph, _⟩ := List.cons.inj (show "cls" :: ["self", "x"] = p :: rest from hpr)
    rw [← hph]
    decide
  exact h.2 hns

/-- C7: two accepted call events for the same class, path and first line
(the second necessarily also accepted, i.e. never suppressed) produce two
trace entries but the class's function table holds exactly one node for the
`path:lineno` key, whose contents are those computed at first sight — the
second `add_function` returns without touching the table. -/
theorem function_node_registered_once (s : PState) (e1 e2 : Event)
    (h1 : e1.kind = "call") (h2 : e2.kind = "call")
    (hfo : e2.function_object = e1.function_object)
    (hfile : e2.filename = e1.filename) (hline : e2.firstlineno = e1.firstlineno)
    (hfresh : keyDefined s.functions (funKey e1) = false) :
    match handleEvent s e1 with
    | Except.ok (s1, some _) =>
      (match handleEvent s1 e2 with
       | Except.ok (s2, some _) =>
           entriesAtKey s2.functions (funKey e1) =
             entriesAtKey s1.functions (funKey e1) ∧
           (entriesAtKey s1.functions (funKey e1)).length = 1
       | Except.ok (_, none) => False
       | Except.error _ => True)
    | _ => True := by
  cases he1 : handleEvent s e1 with
  | error m => trivial
  | ok p1 =>
    obtain ⟨s1, r1⟩ := p1
    cases r1 with
    | none => trivial
    | some a =>
      suffices hsuf : (match handleEvent s1 e2 with
         | Except.ok (s2, some _) =>
             entriesAtKey s2.functions (funKey e1) =
               entriesAtKey s1.functions (funKey e1) ∧
             (entriesAtKey s1.functions (funKey e1)).length = 1
         | Except.ok (_, none) => False
         | Except.error _ => True) by exact hsuf
      rcases handleEvent_cases s e1 s1 (some a) he1 with ⟨hn, _⟩ |
        ⟨s0, a0, hra, hdisp, _, _, hfun1, _⟩
      · exact Option.noConfusion hn
      · have hax : a = a0 := Option.some.inj hra
        subst hax
        rcases hdisp with ⟨_, hic⟩ | ⟨hkr, _⟩
        swap
        · rw [h1] at hkr
          exact absurd hkr (by decide)
        obtain ⟨b, sb, hie, hec, hax2, hs0⟩ := inspect_call_some s e1 s0 a hic
        obtain ⟨_, _, hbpath, hbline, _, _, _, _, _, _, hbfq, hsb⟩ :=
          inspect_event_some s e1 b sb hie
        obtain ⟨_, cfq, _, _, _, cpath, cline, _, _⟩ := callEntry_base b e1
        have hkey : funKey e1 =
            splitDot b.fq_class ++
              splitDot (e1.filename ++ ":" ++ Nat.repr e1.firstlineno) := by
          unfold funKey
          rw [hbfq]
        have hnp : (funKey e1).isPrefixOf (splitDot b.fq_class) = false := by
          rw [hkey]
          exact append_not_isPrefixOf _ _
            (splitDot_ne_nil (e1.filename ++ ":" ++ Nat.repr e1.firstlineno))
        -- the entries of the state after the first call
        have hsbent : sb.functions.entries = s.functions.entries := by
          rw [hsb]; exact add_to_classmap_entries s b.fq_class
        have hsbdef : keyDefined sb.functions (funKey e1) =
            keyDefined s.functions (funKey e1) := by
          rw [hsb]; exact keyDefined_add_to_classmap s b.fq_class (funKey e1) hnp
        have hcekey : splitDot (callEntry b e1).fq_class ++
            splitDot ((callEntry b e1).path ++ ":" ++
              Nat.repr (callEntry b e1).lineno) = funKey e1 := by
          rw [cfq, cpath, cline, hbpath, hbline, hkey]
        have hents0 : s0.functions.entries =
            s.functions.entries ++
              [(funKey e1,
                mkFunctionEntry (callEntry b e1).method_id
                  ((callEntry b e1).path ++ ":" ++ Nat.repr (callEntry b e1).lineno)
                  (scanParams 0 e1.varnames e1.locals).2.1)] := by
          rw [hs0, add_function_entries]
          show (if keyDefined sb.functions (splitDot (callEntry b e1).fq_class ++
              splitDot ((callEntry b e1).path ++ ":" ++
                Nat.repr (callEntry b e1).lineno)) = true
            then sb.functions.entries
            else sb.functions.entries ++ _) = _
          rw [hcekey, hsbdef, hfresh]
          simp [hsbent, hcekey]
        have hents1 : s1.functions.entries =
            s.functions.entries ++
              [(funKey e1,
                mkFunctionEntry (callEntry b e1).method_id
                  ((callEntry b e1).path ++ ":" ++ Nat.repr (callEntry b e1).lineno)
                  (scanParams 0 e1.varnames e1.locals).2.1)] := by
          rw [hfun1]; exact hents0
        have hmem : (funKey e1,
            mkFunctionEntry (callEntry b e1).method_id
              ((callEntry b e1).path ++ ":" ++ Nat.repr (callEntry b e1).lineno)
              (scanParams 0 e1.varnames e1.locals).2.1) ∈ s1.functions.entries := by
          rw [hents1]
          exact List.mem_append_right _ (List.mem_singleton.mpr rfl)
        have hdef1 : keyDefined s1.functions (funKey e1) = true :=
          keyDefined_of_mem s1.functions (funKey e1) _ hmem
        have hatkey1 : entriesAtKey s1.functions (funKey e1) =
            [mkFunctionEntry (callEntry b e1).method_id
              ((callEntry b e1).path ++ ":" ++ Nat.repr (callEntry b e1).lineno)
              (scanParams 0 e1.varnames e1.locals).2.1] := by
          unfold entriesAtKey
          rw [hents1, List.filter_append, List.map_append]
          have hnilpart : entriesAtKey s.functions (funKey e1) = [] :=
            entriesAtKey_nil_of_not_defined s.functions (funKey e1) hfresh
          unfold entriesAtKey at hnilpart
          rw [hnilpart]
          simp
        cases he2 : handleEvent s1 e2 with
        | error m => trivial
        | ok p2 =>
          obtain ⟨s2, r2⟩ := p2
          cases r2 with
          | none =>
            rcases handleEvent_cases s1 e2 s2 none he2 with ⟨_, hcase⟩ |
              ⟨_, _, hrx, _⟩
            · rcases hcase with ⟨hnc, _, _⟩ | ⟨_, hic2⟩ | ⟨hkr2, _⟩
              · exact absurd h2 hnc
              · obtain ⟨_, hie2none⟩ := inspect_call_none s1 e2 s2 hic2
                have := inspect_event_none_of s s1 e1 e2 hfo hie2none
                rw [this] at hie
                exact Option.noConfusion hie
              · rw [h2] at hkr2
                exact absurd hkr2 (by decide)
            · exact Option.noConfusion hrx
          | some a2 =>
            suffices hconc :
                entriesAtKey s2.functions (funKey e1) =
                  entriesAtKey s1.functions (funKey e1) ∧
                (entriesAtKey s1.functions (funKey e1)).length = 1 by exact hconc
            refine ⟨?_, by rw [hatkey1]; rfl⟩
            rcases handleEvent_cases s1 e2 s2 (some a2) he2 with ⟨hn2, _⟩ |
              ⟨s0b, a2b, _, hdisp2, _, _, hfun2, _⟩
            · exact Option.noConfusion hn2
            · rcases hdisp2 with ⟨_, hic2⟩ | ⟨hkr2, _⟩
              swap
              · rw [h2] at hkr2
                exact absurd hkr2 (by decide)
              obtain ⟨b2, sb2, hie2, _, _, hs0b⟩ := inspect_call_some s1 e2 s0b a2b hic2
              obtain ⟨_, _, hb2path, hb2line, _, _, _, _, _, _, hb2fq, hsb2⟩ :=
                inspect_event_some s1 e2 b2 sb2 hie2
              obtain ⟨_, c2fq, _, _, _, c2path, c2line, _, _⟩ := callEntry_base b2 e2
              have hfq12 : b2.fq_class = b.fq_class := by
                have hcg := eventFq_congr e1 e2 hfo
                rw [hb2fq, hbfq] at hcg
                exact Option.some.inj hcg
              have hsb2ent : sb2.functions.entries = s1.functions.entries := by
                rw [hsb2]; exact add_to_classmap_entries s1 b2.fq_class
              have hkey2 : splitDot (callEntry b2 e2).fq_class ++
                  splitDot ((callEntry b2 e2).path ++ ":" ++
                    Nat.repr (callEntry b2 e2).lineno) = funKey e1 := by
                rw [c2fq, c2path, c2line, hb2path, hb2line, hfq12, hfile, hline, hkey]
              have hnp2 : (funKey e1).isPrefixOf (splitDot b2.fq_class) = false := by
                rw [hfq12]
                exact hnp
              have hsb2def : keyDefined sb2.functions (funKey e1) =
                  keyDefined s1.functions (funKey e1) := by
                rw [hsb2]
                exact keyDefined_add_to_classmap s1 b2.fq_class (funKey e1) hnp2
              have hnoop : s0b.functions.entries = s1.functions.entries := by
                rw [hs0b, add_function_entries]
                show (if keyDefined sb2.functions (splitDot (callEntry b2 e2).fq_class ++
                    splitDot ((callEntry b2 e2).path ++ ":" ++
                      Nat.repr (callEntry b2 e2).lineno)) = true
                  then sb2.functions.entries
                  else sb2.functions.entries ++ _) = _
                rw [hkey2, hsb2def, hdef1]
                simp [hsb2ent]
              have hs2ent : s2.functions.entries = s1.functions.entries := by
                rw [hfun2]; exact hnoop
              unfold entriesAtKey
              rw [hs2ent]

/-- Witness for the dedup claim: two concrete accepted calls to `mod.C.m`
at `fileA:3` on frames 1 and 2 from the initial state; both are emitted and
the function table keeps exactly one node for the location. -/
theorem function_node_registered_once_witness :
    (match handleEvent initState cEv1 with
     | Except.ok (_, some _) => True
     | _ => False) ∧
    (match handleEvent initState cEv1 with
     | Except.ok (s1, some _) =>
       (match handleEvent s1 cEv2 with
        | Except.ok (s2, some _) =>
            entriesAtKey s2.functions (funKey cEv1) =
              entriesAtKey s1.functions (funKey cEv1) ∧
            (entriesAtKey s1.functions (funKey cEv1)).length = 1
        | Except.ok (_, none) => False
        | Except.error _ => True)
     | _ => True) :=
  ⟨True.intro, function_node_registered_once initState cEv1 cEv2 rfl rfl rfl rfl rfl rfl⟩
